import Mathlib

/-!
A shallow embedding of the code-action synthesis subsystem of the elm
language server: the `CodeActionProvider` dispatcher (provider
registration, per-diagnostic dispatch, fix-all gating, range-based
refactor detection, the legacy diagnostic-to-annotation conversion) and
the "introduce new function argument" fix provider.

External collaborators (syntax-tree cursor queries, the type checker,
the exposing-list edit builders, the two external diagnostics sources)
are modelled as parameters gathered in a `Collab` record, so every
theorem quantifies over their behaviour.  The tree-sitter node
interface is modelled as a record of accessor functions over node ids.
-/

namespace ElmLS

/-- A text position; tree-sitter calls the components row/column, the
editor protocol line/character. -/
structure Pos where
  row : Nat
  col : Nat
deriving DecidableEq

/-- A text range, a pair of positions. -/
structure Range where
  start : Pos
  endPos : Pos
deriving DecidableEq

/-- A diagnostic `code` as the editor protocol allows it: a string, a
number, or absent.  The dispatcher reacts to string codes only. -/
inductive DiagCode where
  | str (s : String)
  | num (n : Int)
  | missing
deriving DecidableEq

/-- Whether a diagnostic code is a string (the `typeof diagnostic.code
=== "string"` test of the dispatcher). -/
def DiagCode.isStr : DiagCode → Bool
  | DiagCode.str _ => true
  | _ => false

/-- A diagnostic: a code, a source range and a human message. -/
structure Diagnostic where
  code : DiagCode
  range : Range
  message : String
deriving DecidableEq

/-- Modelled from the spec: `diagnosticsEquals` lives in
providers/diagnostics/fileDiagnostics, which is not among the sources;
the spec's fix-all gate asks for another diagnostic that "is not
identical to d", modelled as structural equality of diagnostics. -/
def diagnosticsEquals (a b : Diagnostic) : Bool :=
  a == b

/-- A text edit: a range and replacement text. -/
structure TextEdit where
  range : Range
  newText : String
deriving DecidableEq

/-- A zero-width insertion edit (vscode-languageserver `TextEdit.insert`). -/
def TextEdit.insert (pos : Pos) (newText : String) : TextEdit :=
  { range := { start := pos, endPos := pos }, newText := newText }

/-- One argument of an editor command: the dispatcher passes strings and
a document/range pair to the move-function refactor command. -/
inductive ArgValue where
  | str (s : String)
  | docRange (uri : String) (range : Range)
deriving DecidableEq

/-- An editor command attached to a code action. -/
structure Command where
  title : String
  command : String
  arguments : List ArgValue
deriving DecidableEq

/-- The code-action kind tags used by this subsystem. -/
def CodeActionKind.QuickFix : String := "quickfix"

/-- The refactor kind tag. -/
def CodeActionKind.Refactor : String := "refactor"

/-- The refactor-rewrite kind tag. -/
def CodeActionKind.RefactorRewrite : String := "refactor.rewrite"

/-- The source-fix-all kind tag. -/
def CodeActionKind.SourceFixAll : String := "source.fixAll"

/-- A code action: title, kind tag, an optional workspace edit (a map
from document uri to its edits, modelled as an association list), an
optional command, the diagnostics it resolves, and the preferred flag. -/
structure CodeAction where
  title : String
  kind : String
  edit : Option (List (String × List TextEdit)) := none
  command : Option Command := none
  diagnostics : Option (List Diagnostic) := none
  isPreferred : Option Bool := none
deriving DecidableEq

/-- The request parameters the dispatcher works on: the document uri,
the request range (mutated in place by the dispatcher's diagnostic
loop), and the diagnostics of the request context. -/
structure Params where
  uri : String
  range : Range
  contextDiagnostics : List Diagnostic
deriving DecidableEq

/-- The tree-sitter syntax tree, as the subsystem queries it: accessor
functions over node ids (`SyntaxNode` fields in web-tree-sitter). -/
structure STree where
  type : Nat → String
  text : Nat → String
  startPosition : Nat → Pos
  endPosition : Nat → Pos
  parent : Nat → Option Nat
  previousSibling : Nat → Option Nat
  firstChild : Nat → Option Nat
  lastChild : Nat → Option Nat
  childForFieldName : Nat → String → Option Nat
  rootNode : Nat

/-- The chain of parents of a node, innermost first, bounded by fuel;
on trees whose parent links strictly decrease the node id (any
well-formed instance in this file), fuel `i + 1` reaches the root. -/
def parentChainAux (t : STree) : Nat → Nat → List Nat
  | 0, _ => []
  | fuel + 1, i =>
    match t.parent i with
    | none => []
    | some j => j :: parentChainAux t fuel j

/-- Modelled from the spec: `TreeUtils.getAllAncestorsOfType`
(util/treeUtils is not among the sources).  Per the spec's "walk
ancestors by node-type", it collects the ancestors of a node whose type
tag matches, walking the parent chain upward, so innermost first. -/
def getAllAncestorsOfType (t : STree) (type : String) (i : Nat) : List Nat :=
  (parentChainAux t (i + 1) i).filter (fun j => t.type j == type)

/-- The `flatMap` helper of util/treeUtils. -/
def flatMap (l : List α) (f : α → List β) : List β :=
  match l with
  | [] => []
  | a :: l => f a ++ flatMap l f

/-- The external collaborators of the dispatcher and providers, plus
the per-request inputs they return: the forest's tree for the document
(absent when the document is unknown), the source-file tree container's
tree, the cursor utilities, the type checker's rendering of a node's
inferred type, the exposing-list edit builders, the program diagnostics
of the source file, and the configuration flag for the move refactor. -/
structure Collab where
  forestTree : Option STree
  sfTree : STree
  getNamedDescendantForPosition : Pos → Nat
  getNamedDescendantForRange : Range → Nat
  findParentOfType : String → Nat → Option Nat
  getTypeAnnotation : Nat → Option Nat
  findAllTopLevelFunctionDeclarations : Option (List Nat)
  findLineNumberAfterCurrentFunction : Nat → Option Nat
  findTypeString : Nat → String
  isExposedFunction : String → Bool
  isExposedTypeOrTypeAlias : String → Bool
  exposeValueInModule : String → Option TextEdit
  unexposedValueInModule : String → Option TextEdit
  createTopLevelFunction : Nat → String → String → Option Nat → Option TextEdit
  moveFunctionRefactoringSupport : Bool
  programDiagnostics : List Diagnostic
  missingTypeAnnotationCode : String

/-- A fix-provider registration (`ICodeActionRegistration`): the
diagnostic codes it reacts to, its fix identifier, and its two
capabilities. -/
structure Registration where
  errorCodes : List String
  fixId : String
  getCodeActions : Collab → Params → Option (List CodeAction)
  getFixAllCodeAction : Collab → Params → Option CodeAction

/-- Modelled from the spec: `MultiMap.getAll` (util/multiMap is not
among the sources); per the spec's registry contract it returns all
registrations stored under a code, in registration order. -/
def multiMapGetAll (m : List (String × Registration)) (code : String) : List Registration :=
  (m.filter (fun e => e.1 == code)).map (fun e => e.2)

/-- `CodeActionProvider.registerCodeAction`: store the registration
under each of its declared error codes. -/
def registerCodeAction (m : List (String × Registration)) (registration : Registration) :
    List (String × Registration) :=
  m ++ registration.errorCodes.map (fun code => (code, registration))

/-- `CodeActionProvider.getCodeAction`: a preferred quick fix carrying
the given edits for the source file. -/
def getCodeAction (params : Params) (title : String) (edits : List TextEdit) : CodeAction :=
  { title := title
    kind := CodeActionKind.QuickFix
    edit := some [(params.uri, edits)]
    isPreferred := some true }

/-- `CodeActionProvider.addDiagnosticToCodeAction`: record the
diagnostic the action resolves. -/
def addDiagnosticToCodeAction (codeAction : CodeAction) (diagnostic : Diagnostic) : CodeAction :=
  { codeAction with diagnostics := some [diagnostic] }

/-- The body of the registration loop of `onCodeAction`: the single-fix
actions of one registration, tagged with the diagnostic, followed by
the registration's fix-all action when the single fixes are non-empty
and some other diagnostic of the document carries the same code. -/
def processRegistration (c : Collab) (params : Params) (diagnostic : Diagnostic)
    (reg : Registration) : List CodeAction :=
  let codeActions :=
    ((reg.getCodeActions c params).getD []).map
      (fun codeAction => addDiagnosticToCodeAction codeAction diagnostic)
  if !codeActions.isEmpty
      && c.programDiagnostics.any
        (fun diag => !diagnosticsEquals diag diagnostic && diag.code == diagnostic.code) then
    codeActions ++ (reg.getFixAllCodeAction c params).toList
  else
    codeActions

/-- One step of the diagnostic loop of `onCodeAction`: a diagnostic
with a string code sets the working range to its own range and appends
the actions of every registration for that code; any other diagnostic
is skipped. -/
def diagnosticStep (c : Collab) (registry : List (String × Registration)) (p : Params)
    (acc : Range × List CodeAction) (d : Diagnostic) : Range × List CodeAction :=
  match d.code with
  | DiagCode.str code =>
    (d.range,
      acc.2 ++ flatMap (multiMapGetAll registry code)
        (processRegistration c { p with range := d.range } d))
  | _ => acc

/-- The diagnostic loop of `onCodeAction` over the context diagnostics,
threading the mutable `params.range` and the results list. -/
def diagLoop (c : Collab) (registry : List (String × Registration)) (p : Params) :
    Range × List CodeAction :=
  p.contextDiagnostics.foldl (diagnosticStep c registry p) (p.range, [])

/-- The actions one context diagnostic contributes through the
registry, computed at the diagnostic's own range. -/
def diagContribution (c : Collab) (registry : List (String × Registration)) (p : Params)
    (d : Diagnostic) : List CodeAction :=
  match d.code with
  | DiagCode.str code =>
    flatMap (multiMapGetAll registry code)
      (processRegistration c { p with range := d.range } d)
  | _ => []

/-- The value of the mutable working range after the diagnostic loop:
the range of the last context diagnostic with a string code, or the
initial range when there is none. -/
def lastStringCodeRange (ds : List Diagnostic) (r : Range) : Range :=
  match ds with
  | [] => r
  | d :: ds =>
    lastStringCodeRange ds
      (match d.code with
       | DiagCode.str _ => d.range
       | _ => r)

/-- `CodeActionProvider.insertQuickFixAtStart`. -/
def insertQuickFixAtStart (uri : String) (replaceWith : String) (diagnostic : Diagnostic)
    (title : String) : CodeAction :=
  { title := title
    kind := CodeActionKind.QuickFix
    edit := some [(uri, [TextEdit.insert diagnostic.range.start replaceWith])]
    diagnostics := some [diagnostic] }

/-- The body of `convertDiagnosticsToCodeActions` for one diagnostic:
only the missing-type-annotation string code converts, into an inferred
annotation inserted at the diagnostic's start. -/
def convertDiagnostic (c : Collab) (t : STree) (uri : String) (d : Diagnostic) :
    List CodeAction :=
  match d.code with
  | DiagCode.str s =>
    if s == c.missingTypeAnnotationCode then
      let nodeAtPosition := c.getNamedDescendantForPosition d.range.start
      match t.parent nodeAtPosition with
      | some par =>
        [insertQuickFixAtStart uri
          (t.text nodeAtPosition ++ " : " ++ c.findTypeString par ++ "\n") d
          "Add inferred annotation"]
      | none => []
    else []
  | _ => []

/-- `CodeActionProvider.convertDiagnosticsToCodeActions`. -/
def convertDiagnosticsToCodeActions (c : Collab) (diagnostics : List Diagnostic)
    (uri : String) : List CodeAction :=
  match c.forestTree with
  | none => []
  | some t => flatMap diagnostics (convertDiagnostic c t uri)

/-- `CodeActionProvider.getFunctionCodeActions`: move and
expose/unexpose refactors for a top-level function name at the working
range. -/
def getFunctionCodeActions (c : Collab) (params : Params) (t : STree)
    (nodeAtPosition : Nat) : List CodeAction :=
  if ((t.parent nodeAtPosition).map t.type == some "type_annotation"
        || (t.parent nodeAtPosition).map t.type == some "function_declaration_left")
      && (c.findParentOfType "let_in_expr" nodeAtPosition).isNone then
    let functionName := t.text nodeAtPosition
    (if c.moveFunctionRefactoringSupport then
      [{ title := "Move Function"
         kind := CodeActionKind.RefactorRewrite
         command := some
           { title := "Refactor"
             command := "elm.refactor"
             arguments := [ArgValue.str "moveFunction",
               ArgValue.docRange params.uri params.range, ArgValue.str functionName] } }]
    else [])
    ++ (if c.isExposedFunction functionName then
          match c.unexposedValueInModule functionName with
          | some edit =>
            [{ title := "Unexpose Function"
               kind := CodeActionKind.Refactor
               edit := some [(params.uri, [edit])] }]
          | none => []
        else
          match c.exposeValueInModule functionName with
          | some edit =>
            [{ title := "Expose Function"
               kind := CodeActionKind.Refactor
               edit := some [(params.uri, [edit])] }]
          | none => [])
  else []

/-- `CodeActionProvider.getTypeAliasCodeActions`: expose/unexpose
refactors for a type or type-alias name at the working range. -/
def getTypeAliasCodeActions (c : Collab) (params : Params) (t : STree)
    (nodeAtPosition : Nat) : List CodeAction :=
  if t.type nodeAtPosition == "upper_case_identifier"
      && ((t.parent nodeAtPosition).map t.type == some "type_alias_declaration"
          || (t.parent nodeAtPosition).map t.type == some "type_declaration") then
    let typeName := t.text nodeAtPosition
    let aliasStr :=
      if (t.parent nodeAtPosition).map t.type == some "type_alias_declaration" then
        " Alias"
      else ""
    if c.isExposedTypeOrTypeAlias typeName then
      match c.unexposedValueInModule typeName with
      | some edit =>
        [{ title := "Unexpose Type" ++ aliasStr
           kind := CodeActionKind.Refactor
           edit := some [(params.uri, [edit])] }]
      | none => []
    else
      match c.exposeValueInModule typeName with
      | some edit =>
        [{ title := "Expose Type" ++ aliasStr
           kind := CodeActionKind.Refactor
           edit := some [(params.uri, [edit])] }]
      | none => []
  else []

/-- `CodeActionProvider.getMakeDeclarationFromUsageCodeActions`: offer
to create a top-level declaration for a bare lower-case identifier
usage, unless a top-level declaration with that name already exists. -/
def getMakeDeclarationFromUsageCodeActions (c : Collab) (params : Params) (t : STree)
    (nodeAtPosition : Nat) : List CodeAction :=
  if t.type nodeAtPosition == "lower_case_identifier"
      && ((t.parent nodeAtPosition).bind t.parent).map t.type == some "value_expr"
      && (((t.parent nodeAtPosition).bind t.parent).bind t.parent).isSome
      && !((t.previousSibling nodeAtPosition).map t.type == some "dot") then
    let funcName := t.text nodeAtPosition
    let tree := c.sfTree
    if !((c.findAllTopLevelFunctionDeclarations.map
          (fun decls => decls.any (fun a =>
            (tree.firstChild a).map tree.text == some funcName
            || ((tree.firstChild a).bind tree.firstChild).map tree.text == some funcName))).getD
        false) then
      let insertLineNumber := c.findLineNumberAfterCurrentFunction nodeAtPosition
      let typeString := c.findTypeString nodeAtPosition
      match c.createTopLevelFunction
          (insertLineNumber.getD (tree.endPosition tree.rootNode).row)
          funcName typeString
          (c.findParentOfType "function_call_expr" nodeAtPosition) with
      | some edit =>
        [{ title := "Create local function"
           kind := CodeActionKind.QuickFix
           edit := some [(params.uri, [edit])] }]
      | none => []
    else []
  else []

/-- `CodeActionProvider.getRefactorCodeActions`: the range-based
refactor detection, at the node found at the working range's start. -/
def getRefactorCodeActions (c : Collab) (params : Params) : List CodeAction :=
  match c.forestTree with
  | none => []
  | some t =>
    let nodeAtPosition := c.getNamedDescendantForPosition params.range.start
    getFunctionCodeActions c params t nodeAtPosition
      ++ getTypeAliasCodeActions c params t nodeAtPosition
      ++ getMakeDeclarationFromUsageCodeActions c params t nodeAtPosition

/-- `CodeActionProvider.getTypeAnnotationCodeActions`: the let-binding
inferred-annotation action at the working range. -/
def getTypeAnnotationCodeActions (c : Collab) (params : Params) : List CodeAction :=
  match c.forestTree with
  | none => []
  | some t =>
    let nodeAtPosition := c.getNamedDescendantForPosition params.range.start
    match t.parent nodeAtPosition with
    | none => []
    | some par =>
      match t.parent par with
      | none => []
      | some pp =>
        if t.type par == "function_declaration_left"
            && (c.findParentOfType "let_in_expr" nodeAtPosition).isSome
            && (c.getTypeAnnotation pp).isNone then
          let typeString := c.findTypeString par
          [{ title := "Add inferred annotation"
             kind := CodeActionKind.QuickFix
             edit := some [(params.uri,
               [TextEdit.insert (t.startPosition nodeAtPosition)
                 (t.text nodeAtPosition ++ " : " ++ typeString ++ "\n"
                   ++ String.mk (List.replicate (t.startPosition nodeAtPosition).col ' '))])] }]
        else []

/-- `CodeActionProvider.onCodeAction`: the external diagnostics sources
are asked first on the original request, then the diagnostic loop runs
(mutating the working range in place), then the legacy conversions, the
range-based refactor detection and the let-binding annotation detection
at the working range left by the loop, and everything is concatenated. -/
def onCodeAction (c : Collab) (registry : List (String × Registration))
    (make elmLsActions : List CodeAction) (p : Params) : List CodeAction :=
  let loop := diagLoop c registry p
  let pAfter := { p with range := loop.1 }
  loop.2
    ++ convertDiagnosticsToCodeActions c p.contextDiagnostics p.uri
    ++ getRefactorCodeActions c pAfter
    ++ getTypeAnnotationCodeActions c pAfter
    ++ make
    ++ elmLsActions

/-- Modelled from the spec: `Diagnostics.MissingValue.code`
(compiler/diagnostics is not among the sources); a stable string code,
whose exact text is immaterial to every claim. -/
def missingValueCode : String := "missing_value"

/-- The rendered-type wrapping of the introduce-new-function-argument
provider: parenthesize exactly when the rendered string has a space
(the space test is on the string's character list, which is what the
source's substring test of the one-character string amounts to). -/
def typeStringWithParen (typeString : String) : String :=
  if typeString.data.contains ' ' then "(" ++ typeString ++ ")" else typeString

/-- `getActionsForValueDeclaration` of the
introduce-new-function-argument provider: append the identifier after
the declaration's last pattern and, when a type annotation with a type
expression exists, insert the (possibly parenthesized) inferred type
before the annotation's return type. -/
def getActionsForValueDeclaration (c : Collab) (t : STree) (valueDeclaration : Nat)
    (nodeAtPosition : Nat) (params : Params) : Option CodeAction :=
  match (t.firstChild valueDeclaration).bind t.lastChild with
  | none => none
  | some lastPattern =>
    let valueArgumentPosition : Pos :=
      { row := (t.endPosition lastPattern).row, col := (t.endPosition lastPattern).col + 1 }
    let firstEdits := [TextEdit.insert valueArgumentPosition (t.text nodeAtPosition ++ " ")]
    let lastArgumentType :=
      ((c.getTypeAnnotation valueDeclaration).bind
        (fun ta => t.childForFieldName ta "typeExpression")).bind t.lastChild
    let edits :=
      match lastArgumentType with
      | none => firstEdits
      | some lat =>
        firstEdits
          ++ [TextEdit.insert (t.startPosition lat)
               (typeStringWithParen (c.findTypeString nodeAtPosition) ++ " -> ")]
    let functionName :=
      (((t.firstChild valueDeclaration).bind t.firstChild).map t.text).getD "undefined"
    some (getCodeAction params ("Add new parameter to \"" ++ functionName ++ "\"") edits)

/-- `getActions` of the introduce-new-function-argument provider: for a
bare lower-case identifier usage, one candidate action per enclosing
value declaration. -/
def getActions (c : Collab) (params : Params) (range : Range) : Option (List CodeAction) :=
  let t := c.sfTree
  let nodeAtPosition := c.getNamedDescendantForRange range
  if t.type nodeAtPosition == "lower_case_identifier"
      && ((t.parent nodeAtPosition).bind t.parent).map t.type == some "value_expr"
      && (((t.parent nodeAtPosition).bind t.parent).bind t.parent).isSome
      && !((t.previousSibling nodeAtPosition).map t.type == some "dot") then
    some ((getAllAncestorsOfType t "value_declaration" nodeAtPosition).filterMap
      (fun valueDeclaration =>
        getActionsForValueDeclaration c t valueDeclaration nodeAtPosition params))
  else
    none

/-- The registration of the introduce-new-function-argument provider:
it reacts to the missing-value code, and leaves fix-all unimplemented. -/
def introduceNewFunctionArgumentRegistration : Registration :=
  { errorCodes := [missingValueCode]
    fixId := "introduce_new_function_argument"
    getCodeActions := fun c params => getActions c params params.range
    getFixAllCodeAction := fun _ _ => none }

/-- The diagnostic loop, started from any range and accumulator, ends
with the last string-code range and the per-diagnostic contributions in
context order appended to the accumulator. -/
theorem foldl_diagnosticStep (c : Collab) (registry : List (String × Registration))
    (p : Params) :
    ∀ (ds : List Diagnostic) (r : Range) (acc : List CodeAction),
      ds.foldl (diagnosticStep c registry p) (r, acc) =
        (lastStringCodeRange ds r, acc ++ flatMap ds (diagContribution c registry p)) := by
  intro ds
  induction ds with
  | nil => intro r acc; simp [lastStringCodeRange, flatMap]
  | cons d ds ih =>
    intro r acc
    cases hd : d.code with
    | str s =>
      simp only [List.foldl_cons, diagnosticStep, hd, lastStringCodeRange, flatMap,
        diagContribution, ih, List.append_assoc]
    | num n =>
      simp only [List.foldl_cons, diagnosticStep, hd, lastStringCodeRange, flatMap,
        diagContribution, ih, List.nil_append]
    | missing =>
      simp only [List.foldl_cons, diagnosticStep, hd, lastStringCodeRange, flatMap,
        diagContribution, ih, List.nil_append]

/-- C8: for every request, the returned list is the concatenation, in
this order, of the diagnostic-driven provider actions (one block per
context diagnostic, in context order), the diagnostic-to-annotation
conversions, the range-based refactor actions, the let-binding
annotation actions, then the externally supplied actions of the
compile-time (elm make) source followed by those of the lint-time
(elm-ls) source. -/
theorem onCodeAction_ordering (c : Collab) (registry : List (String × Registration))
    (make elmLsActions : List CodeAction) (p : Params) :
    onCodeAction c registry make elmLsActions p =
      flatMap p.contextDiagnostics (diagContribution c registry p)
        ++ convertDiagnosticsToCodeActions c p.contextDiagnostics p.uri
        ++ getRefactorCodeActions c
            { p with range := lastStringCodeRange p.contextDiagnostics p.range }
        ++ getTypeAnnotationCodeActions c
            { p with range := lastStringCodeRange p.contextDiagnostics p.range }
        ++ make ++ elmLsActions := by
  unfold onCodeAction diagLoop
  rw [foldl_diagnosticStep]
  simp

/-- C1 (amended): the range-based refactor detection and the
let-binding annotation detection inspect the node at the working range
left by the diagnostic loop — the range of the last context diagnostic
with a string code when one exists, and the original request range only
otherwise. -/
theorem refactorDetection_at_mutated_range (c : Collab)
    (registry : List (String × Registration)) (make elmLsActions : List CodeAction)
    (p : Params) :
    ∃ providerActions : List CodeAction,
      onCodeAction c registry make elmLsActions p =
        providerActions
          ++ convertDiagnosticsToCodeActions c p.contextDiagnostics p.uri
          ++ getRefactorCodeActions c
              { p with range := lastStringCodeRange p.contextDiagnostics p.range }
          ++ getTypeAnnotationCodeActions c
              { p with range := lastStringCodeRange p.contextDiagnostics p.range }
          ++ make ++ elmLsActions := by
  refine ⟨flatMap p.contextDiagnostics (diagContribution c registry p), ?_⟩
  unfold onCodeAction diagLoop
  rw [foldl_diagnosticStep]
  simp

/-- A tree with no structure, used as a neutral default. -/
def trivialTree : STree :=
  { type := fun _ => "file"
    text := fun _ => ""
    startPosition := fun _ => { row := 0, col := 0 }
    endPosition := fun _ => { row := 0, col := 0 }
    parent := fun _ => none
    previousSibling := fun _ => none
    firstChild := fun _ => none
    lastChild := fun _ => none
    childForFieldName := fun _ _ => none
    rootNode := 0 }

/-- A collaborator record in which every query comes back empty. -/
def baseCollab : Collab :=
  { forestTree := none
    sfTree := trivialTree
    getNamedDescendantForPosition := fun _ => 0
    getNamedDescendantForRange := fun _ => 0
    findParentOfType := fun _ _ => none
    getTypeAnnotation := fun _ => none
    findAllTopLevelFunctionDeclarations := none
    findLineNumberAfterCurrentFunction := fun _ => none
    findTypeString := fun _ => "Int"
    isExposedFunction := fun _ => false
    isExposedTypeOrTypeAlias := fun _ => false
    exposeValueInModule := fun _ => none
    unexposedValueInModule := fun _ => none
    createTopLevelFunction := fun _ _ _ _ => none
    moveFunctionRefactoringSupport := false
    programDiagnostics := []
    missingTypeAnnotationCode := "missing_type_annot" ++ "ation" }

/-- A tree in which node 1 is an unexposed top-level function name
`f` (a child of a function_declaration_left node). -/
def c1Tree : STree :=
  { trivialTree with
    type := fun i =>
      if i == 1 then "lower_case_identifier"
      else if i == 2 then "function_declaration_left"
      else "file"
    text := fun i => if i == 1 then "f" else ""
    parent := fun i => if i == 1 then some 2 else none }

/-- Collaborators for the C1 counterexample: the cursor utility finds
node 1 (the function name `f`) at row 5 — the diagnostic's range — and
the structureless root node 0 anywhere else; `f` can be exposed. -/
def c1Collab : Collab :=
  { baseCollab with
    forestTree := some c1Tree
    getNamedDescendantForPosition := fun pos => if pos.row == 5 then 1 else 0
    exposeValueInModule := fun name =>
      if name == "f" then some (TextEdit.insert { row := 0, col := 20 } ", f") else none }

/-- A diagnostic with a string code (registered with no provider) whose
range, row 5, differs from the request range. -/
def c1Diag : Diagnostic :=
  { code := DiagCode.str "SomeCode"
    range := { start := { row := 5, col := 0 }, endPos := { row := 5, col := 1 } }
    message := "m" }

/-- The C1 request: the original range is at row 0, while the context
carries `c1Diag` at row 5. -/
def c1Params : Params :=
  { uri := "file:///Main.elm"
    range := { start := { row := 0, col := 0 }, endPos := { row := 0, col := 0 } }
    contextDiagnostics := [c1Diag] }

/-- C1 (counterexample): with one string-code diagnostic in scope, the
computed actions contain an Expose Function refactor anchored to the
node at the diagnostic's range, although refactor detection and
let-binding annotation detection at the original request range both
produce nothing — so the detection does not inspect the node at the
original request range. -/
theorem refactorDetection_original_range_counterexample :
    onCodeAction c1Collab [] [] [] c1Params =
      [{ title := "Expose Function"
         kind := CodeActionKind.Refactor
         edit := some [("file:///Main.elm", [TextEdit.insert { row := 0, col := 20 } ", f"])] }]
    ∧ getRefactorCodeActions c1Collab c1Params = []
    ∧ getTypeAnnotationCodeActions c1Collab c1Params = []
    ∧ c1Params.range ≠ c1Diag.range := by
  refine ⟨by decide, by decide, by decide, by decide⟩

/-- The first of two program diagnostics sharing the code ImportError. -/
def c2d1 : Diagnostic :=
  { code := DiagCode.str "ImportError"
    range := { start := { row := 1, col := 0 }, endPos := { row := 1, col := 5 } }
    message := "m1" }

/-- The second diagnostic with code ImportError, at another range. -/
def c2d2 : Diagnostic :=
  { code := DiagCode.str "ImportError"
    range := { start := { row := 3, col := 0 }, endPos := { row := 3, col := 5 } }
    message := "m2" }

/-- The single-fix action the C2 provider always returns. -/
def c2Action : CodeAction :=
  { title := "Fix the import"
    kind := CodeActionKind.QuickFix
    edit := some [("file:///Main.elm", [TextEdit.insert { row := 1, col := 0 } "x"])] }

/-- The fix-all action the C2 provider returns on request. -/
def c2FixAllAction : CodeAction :=
  { title := "Fix all imports"
    kind := CodeActionKind.SourceFixAll
    edit := some [("file:///Main.elm", [TextEdit.insert { row := 0, col := 0 } "y"])] }

/-- A provider registered for ImportError that always produces one
single fix and supports fix-all. -/
def c2Reg : Registration :=
  { errorCodes := ["ImportError"]
    fixId := "fix_import"
    getCodeActions := fun _ _ => some [c2Action]
    getFixAllCodeAction := fun _ _ => some c2FixAllAction }

/-- The registry holding the C2 provider. -/
def c2Registry : List (String × Registration) :=
  registerCodeAction [] c2Reg

/-- Collaborators whose document carries both ImportError diagnostics. -/
def c2CollabTwo : Collab :=
  { baseCollab with programDiagnostics := [c2d1, c2d2] }

/-- Collaborators whose document carries only one ImportError diagnostic. -/
def c2CollabOne : Collab :=
  { baseCollab with programDiagnostics := [c2d1] }

/-- A request at a diagnostic's range, with that diagnostic in scope. -/
def c2ParamsAt (d : Diagnostic) : Params :=
  { uri := "file:///Main.elm"
    range := d.range
    contextDiagnostics := [d] }

/-- C2: a registration's fix-all action is appended after its single
fixes exactly when the single fixes are non-empty and some other
document diagnostic carries the same code; concretely, with two
ImportError diagnostics a request at either one yields the single fix
and exactly one fix-all action, and with a single ImportError
diagnostic no fix-all action is produced. -/
theorem fixAll_gating :
    (∀ (c : Collab) (params : Params) (d : Diagnostic) (reg : Registration)
        (fa : CodeAction), reg.getFixAllCodeAction c params = some fa →
      (processRegistration c params d reg =
          ((reg.getCodeActions c params).getD []).map
            (fun codeAction => addDiagnosticToCodeAction codeAction d) ++ [fa]
        ↔ ((reg.getCodeActions c params).getD []) ≠ []
            ∧ c.programDiagnostics.any
                (fun diag => !diagnosticsEquals diag d && diag.code == d.code) = true))
    ∧ onCodeAction c2CollabTwo c2Registry [] [] (c2ParamsAt c2d1) =
        [addDiagnosticToCodeAction c2Action c2d1, c2FixAllAction]
    ∧ onCodeAction c2CollabTwo c2Registry [] [] (c2ParamsAt c2d2) =
        [addDiagnosticToCodeAction c2Action c2d2, c2FixAllAction]
    ∧ onCodeAction c2CollabOne c2Registry [] [] (c2ParamsAt c2d1) =
        [addDiagnosticToCodeAction c2Action c2d1] := by
  refine ⟨?_, by decide, by decide, by decide⟩
  intro c params d reg fa hfa
  simp only [processRegistration]
  rw [hfa]
  generalize (reg.getCodeActions c params).getD [] = g
  generalize c.programDiagnostics.any
    (fun diag => !diagnosticsEquals diag d && diag.code == d.code) = anyb
  cases g with
  | nil => simp
  | cons a l =>
    cases anyb with
    | false => simp
    | true => simp

/-- C2 (witness): the gating equivalence instantiated at the concrete
two-diagnostic scenario. -/
theorem fixAll_gating_witness :
    (processRegistration c2CollabTwo (c2ParamsAt c2d1) c2d1 c2Reg =
        ((c2Reg.getCodeActions c2CollabTwo (c2ParamsAt c2d1)).getD []).map
          (fun codeAction => addDiagnosticToCodeAction codeAction c2d1) ++ [c2FixAllAction]
      ↔ ((c2Reg.getCodeActions c2CollabTwo (c2ParamsAt c2d1)).getD []) ≠ []
          ∧ c2CollabTwo.programDiagnostics.any
              (fun diag => !diagnosticsEquals diag c2d1 && diag.code == c2d1.code) = true) :=
  fixAll_gating.1 c2CollabTwo (c2ParamsAt c2d1) c2d1 c2Reg c2FixAllAction rfl

/-- C5 (supporting data): a diagnostic whose code is the number 42. -/
def c5NumDiag : Diagnostic :=
  { code := DiagCode.num 42
    range := { start := { row := 0, col := 0 }, endPos := { row := 0, col := 1 } }
    message := "m1" }

/-- C5 (supporting data): a context with a numeric code 42 and an
unregistered string code. -/
def c5Params : Params :=
  { uri := "file:///Main.elm"
    range := { start := { row := 0, col := 0 }, endPos := { row := 1, col := 0 } }
    contextDiagnostics :=
      [c5NumDiag,
       { code := DiagCode.str "UnregisteredCode"
         range := { start := { row := 0, col := 2 }, endPos := { row := 0, col := 3 } }
         message := "m2" }] }

/-- C5 (supporting data): a registry holding only the
introduce-new-function-argument provider. -/
def c5Registry : List (String × Registration) :=
  registerCodeAction [] introduceNewFunctionArgumentRegistration

/-- C5: a diagnostic whose code is absent or not a string is skipped by
the diagnostic loop (it changes neither the working range nor the
results) and contributes nothing to the annotation conversions, and the
total computation — everywhere-defined by construction — maps the
concrete context with codes 42 and UnregisteredCode to the empty action
list. -/
theorem malformed_diagnostics_skipped :
    (∀ (c : Collab) (registry : List (String × Registration)) (p : Params)
        (acc : Range × List CodeAction) (d : Diagnostic), d.code.isStr = false →
      diagnosticStep c registry p acc d = acc ∧ diagContribution c registry p d = [])
    ∧ (∀ (c : Collab) (t : STree) (uri : String) (d : Diagnostic), d.code.isStr = false →
        convertDiagnostic c t uri d = [])
    ∧ onCodeAction baseCollab c5Registry [] [] c5Params = [] := by
  refine ⟨?_, ?_, by decide⟩
  · intro c registry p acc d hd
    cases hc : d.code with
    | str s => rw [hc] at hd; exact absurd hd (by simp [DiagCode.isStr])
    | num n => exact ⟨by simp [diagnosticStep, hc], by simp [diagContribution, hc]⟩
    | missing => exact ⟨by simp [diagnosticStep, hc], by simp [diagContribution, hc]⟩
  · intro c t uri d hd
    cases hc : d.code with
    | str s => rw [hc] at hd; exact absurd hd (by simp [DiagCode.isStr])
    | num n => simp [convertDiagnostic, hc]
    | missing => simp [convertDiagnostic, hc]

/-- C5 (witness): the skip properties instantiated at the concrete
numeric-code diagnostic of the C5 context. -/
theorem malformed_diagnostics_skipped_witness :
    (diagnosticStep baseCollab c5Registry c5Params (c5Params.range, []) c5NumDiag =
        (c5Params.range, [])
      ∧ diagContribution baseCollab c5Registry c5Params c5NumDiag = [])
    ∧ convertDiagnostic baseCollab trivialTree "file:///Main.elm" c5NumDiag = [] :=
  ⟨malformed_diagnostics_skipped.1 baseCollab c5Registry c5Params
      (c5Params.range, []) c5NumDiag (by decide),
    malformed_diagnostics_skipped.2.1 baseCollab trivialTree "file:///Main.elm"
      c5NumDiag (by decide)⟩

/-- C7: the introduce-new-function-argument provider declines fix-all
on every input, so the dispatcher's per-registration step for this
provider returns exactly its diagnostic-tagged single fixes — whatever
the document's diagnostics are, no fix-all action is appended. -/
theorem introduceArgument_no_fixAll :
    (∀ (c : Collab) (params : Params),
      introduceNewFunctionArgumentRegistration.getFixAllCodeAction c params = none)
    ∧ (∀ (c : Collab) (params : Params) (d : Diagnostic),
        processRegistration c params d introduceNewFunctionArgumentRegistration =
          ((introduceNewFunctionArgumentRegistration.getCodeActions c params).getD []).map
            (fun codeAction => addDiagnosticToCodeAction codeAction d)) := by
  refine ⟨fun _ _ => rfl, ?_⟩
  intro c params d
  simp only [processRegistration, introduceNewFunctionArgumentRegistration]
  split <;> simp

/-- C9: the computation is a function of the request's document, range
and diagnostics alone — two requests agreeing on those, against the
same collaborator results and registry, produce equal action lists. -/
theorem computeActions_deterministic (c : Collab)
    (registry : List (String × Registration)) (make elmLsActions : List CodeAction)
    (p q : Params) (h1 : p.uri = q.uri) (h2 : p.range = q.range)
    (h3 : p.contextDiagnostics = q.contextDiagnostics) :
    onCodeAction c registry make elmLsActions p =
      onCodeAction c registry make elmLsActions q := by
  obtain ⟨u1, r1, d1⟩ := p
  obtain ⟨u2, r2, d2⟩ := q
  simp only at h1 h2 h3
  subst h1; subst h2; subst h3
  rfl

/-- C9 (witness): the determinism theorem applied at a concrete repeated
request. -/
theorem computeActions_deterministic_witness :
    onCodeAction c1Collab c5Registry [] [] c1Params =
      onCodeAction c1Collab c5Registry [] [] c1Params :=
  computeActions_deterministic c1Collab c5Registry [] [] c1Params c1Params rfl rfl rfl

/-- C3: whenever a value declaration's left-hand side has a last
pattern, the provider produces an action whose first edit inserts the
identifier's text and a space one column past the last pattern's end,
and whose second edit — present exactly when a type annotation with a
type expression (with a last child, the return type) exists — inserts
the rendered (precedence-parenthesized) inferred type of the identifier
followed by an arrow at the return type's start position. -/
theorem introduceArgument_edit_positions (c : Collab) (t : STree)
    (valueDeclaration nodeAtPosition : Nat) (params : Params) (fdl lastPattern : Nat)
    (h1 : t.firstChild valueDeclaration = some fdl)
    (h2 : t.lastChild fdl = some lastPattern) :
    getActionsForValueDeclaration c t valueDeclaration nodeAtPosition params =
      some (getCodeAction params
        ("Add new parameter to \""
          ++ ((((t.firstChild valueDeclaration).bind t.firstChild).map t.text).getD "undefined")
          ++ "\"")
        (TextEdit.insert
            { row := (t.endPosition lastPattern).row
              col := (t.endPosition lastPattern).col + 1 }
            (t.text nodeAtPosition ++ " ") ::
          match ((c.getTypeAnnotation valueDeclaration).bind
              (fun ta => t.childForFieldName ta "typeExpression")).bind t.lastChild with
          | none => []
          | some lat =>
            [TextEdit.insert (t.startPosition lat)
              (typeStringWithParen (c.findTypeString nodeAtPosition) ++ " -> ")])) := by
  cases hch : ((c.getTypeAnnotation valueDeclaration).bind
      (fun ta => t.childForFieldName ta "typeExpression")).bind t.lastChild with
  | none => simp [getActionsForValueDeclaration, h1, h2, hch]
  | some lat => simp [getActionsForValueDeclaration, h1, h2, hch]

/-- A tree for the provider witnesses: node 10 is a value declaration
whose left-hand side (node 11) has the function name node 13 (`f`) and
last pattern node 12 ending at column 5 of row 3; node 1 is the
identifier usage `x`; node 20 is the type annotation, node 21 its type
expression, node 22 the return type starting at column 10 of row 2. -/
def argTree : STree :=
  { trivialTree with
    type := fun i =>
      if i == 1 then "lower_case_identifier"
      else if i == 10 then "value_declaration"
      else if i == 11 then "function_declaration_left"
      else "file"
    text := fun i => if i == 1 then "x" else if i == 13 then "f" else ""
    startPosition := fun i => if i == 22 then { row := 2, col := 10 } else { row := 0, col := 0 }
    endPosition := fun i => if i == 12 then { row := 3, col := 5 } else { row := 0, col := 0 }
    firstChild := fun i => if i == 10 then some 11 else if i == 11 then some 13 else none
    lastChild := fun i => if i == 11 then some 12 else if i == 21 then some 22 else none
    childForFieldName := fun i f =>
      if i == 20 && f == "typeExpression" then some 21 else none }

/-- Collaborators for the provider witnesses: the identifier's inferred
type renders with a space, and the declaration 10 has annotation 20. -/
def argCollab : Collab :=
  { baseCollab with
    sfTree := argTree
    getTypeAnnotation := fun i => if i == 10 then some 20 else none
    findTypeString := fun i => if i == 1 then "List Int" else "Int" }

/-- The request parameters of the provider witnesses. -/
def argParams : Params :=
  { uri := "file:///Main.elm"
    range := { start := { row := 3, col := 2 }, endPos := { row := 3, col := 3 } }
    contextDiagnostics := [] }

/-- C3 (witness): on the concrete declaration the provider inserts
`"x "` at row 3, column 6 (one past the pattern end) and
`"(List Int) -> "` at the return type's start. -/
theorem introduceArgument_edit_positions_witness :
    getActionsForValueDeclaration argCollab argTree 10 1 argParams =
      some (getCodeAction argParams "Add new parameter to \"f\""
        [TextEdit.insert { row := 3, col := 6 } "x ",
         TextEdit.insert { row := 2, col := 10 } "(List Int) -> "]) :=
  (introduceArgument_edit_positions argCollab argTree 10 1 argParams 11 12 rfl rfl).trans
    (by decide)

/-- C4: in the signature edit, the rendered inferred type is wrapped in
parentheses exactly when it contains a space: the provider's inserted
type segment is the wrapped rendering followed by an arrow, a rendering
with a space wraps, and a space-free rendering is inserted unchanged
and is never of the parenthesized form. -/
theorem introduceArgument_paren_iff_space (c : Collab) (t : STree)
    (valueDeclaration nodeAtPosition : Nat) (params : Params)
    (fdl lastPattern ta te lat : Nat)
    (h1 : t.firstChild valueDeclaration = some fdl)
    (h2 : t.lastChild fdl = some lastPattern)
    (h3 : c.getTypeAnnotation valueDeclaration = some ta)
    (h4 : t.childForFieldName ta "typeExpression" = some te)
    (h5 : t.lastChild te = some lat) :
    (∃ title firstEdit,
      getActionsForValueDeclaration c t valueDeclaration nodeAtPosition params =
        some (getCodeAction params title
          [firstEdit,
           TextEdit.insert (t.startPosition lat)
             (typeStringWithParen (c.findTypeString nodeAtPosition) ++ " -> ")]))
    ∧ ((c.findTypeString nodeAtPosition).data.contains ' ' = true →
        typeStringWithParen (c.findTypeString nodeAtPosition) =
          "(" ++ c.findTypeString nodeAtPosition ++ ")")
    ∧ ((c.findTypeString nodeAtPosition).data.contains ' ' = false →
        typeStringWithParen (c.findTypeString nodeAtPosition) =
          c.findTypeString nodeAtPosition
        ∧ typeStringWithParen (c.findTypeString nodeAtPosition) ≠
            "(" ++ c.findTypeString nodeAtPosition ++ ")") := by
  refine ⟨⟨"Add new parameter to \""
      ++ ((((t.firstChild valueDeclaration).bind t.firstChild).map t.text).getD "undefined")
      ++ "\"",
    TextEdit.insert
      { row := (t.endPosition lastPattern).row, col := (t.endPosition lastPattern).col + 1 }
      (t.text nodeAtPosition ++ " "), ?_⟩, ?_, ?_⟩
  · simp [getActionsForValueDeclaration, h1, h2, h3, h4, h5]
  · intro h
    unfold typeStringWithParen
    rw [h]
    rfl
  · intro h
    have he : typeStringWithParen (c.findTypeString nodeAtPosition) =
        c.findTypeString nodeAtPosition := by
      unfold typeStringWithParen
      rw [h]
      rfl
    refine ⟨he, ?_⟩
    rw [he]
    intro heq
    have hlen := congrArg String.length heq
    rw [String.length_append, String.length_append] at hlen
    have hop : ("(" : String).length = 1 := rfl
    have hcp : (")" : String).length = 1 := rfl
    rw [hop, hcp] at hlen
    omega

/-- C4 (witness): the paren rule instantiated on the concrete
declaration, whose rendered type `List Int` contains a space. -/
theorem introduceArgument_paren_iff_space_witness :
    (∃ title firstEdit,
      getActionsForValueDeclaration argCollab argTree 10 1 argParams =
        some (getCodeAction argParams title
          [firstEdit,
           TextEdit.insert (argTree.startPosition 22)
             (typeStringWithParen (argCollab.findTypeString 1) ++ " -> ")]))
    ∧ typeStringWithParen (argCollab.findTypeString 1) =
        "(" ++ argCollab.findTypeString 1 ++ ")" :=
  ⟨(introduceArgument_paren_iff_space argCollab argTree 10 1 argParams
      11 12 20 21 22 rfl rfl rfl rfl rfl).1,
    (introduceArgument_paren_iff_space argCollab argTree 10 1 argParams
      11 12 20 21 22 rfl rfl rfl rfl rfl).2.1 (by decide)⟩

/-- C6: when some top-level function declaration already carries the
usage's identifier as its first token or as its pattern head, the
create-declaration-from-usage detection offers no action. -/
theorem makeDeclarationFromUsage_no_self_collision (c : Collab) (params : Params)
    (t : STree) (nodeAtPosition : Nat) (decls : List Nat)
    (h1 : c.findAllTopLevelFunctionDeclarations = some decls)
    (h2 : decls.any (fun a =>
        (c.sfTree.firstChild a).map c.sfTree.text == some (t.text nodeAtPosition)
        || ((c.sfTree.firstChild a).bind c.sfTree.firstChild).map c.sfTree.text
            == some (t.text nodeAtPosition)) = true) :
    getMakeDeclarationFromUsageCodeActions c params t nodeAtPosition = [] := by
  simp only [getMakeDeclarationFromUsageCodeActions, h1, Option.map_some', Option.getD_some,
    h2, Bool.not_true]
  split <;> rfl

/-- A tree for the C6 witness: node 1 is a bare identifier usage `g`
inside a value expression, and the top-level declaration node 30 has
first child node 31 with text `g`. -/
def c6Tree : STree :=
  { trivialTree with
    type := fun i =>
      if i == 1 then "lower_case_identifier"
      else if i == 3 then "value_expr"
      else if i == 30 then "value_declaration"
      else "file"
    text := fun i => if i == 1 then "g" else if i == 31 then "g" else ""
    parent := fun i =>
      if i == 1 then some 2 else if i == 2 then some 3 else if i == 3 then some 4 else none
    firstChild := fun i => if i == 30 then some 31 else none }

/-- Collaborators for the C6 witness: declaration 30 is the only
top-level function declaration. -/
def c6Collab : Collab :=
  { baseCollab with
    forestTree := some c6Tree
    sfTree := c6Tree
    findAllTopLevelFunctionDeclarations := some [30] }

/-- The request parameters of the C6 witness. -/
def c6Params : Params :=
  { uri := "file:///Main.elm"
    range := { start := { row := 0, col := 0 }, endPos := { row := 0, col := 0 } }
    contextDiagnostics := [] }

/-- C6 (witness): the identifier usage `g`, although of the qualifying
shape, yields no create-declaration action because declaration 30
already binds `g`. -/
theorem makeDeclarationFromUsage_no_self_collision_witness :
    getMakeDeclarationFromUsageCodeActions c6Collab c6Params c6Tree 1 = [] :=
  makeDeclarationFromUsage_no_self_collision c6Collab c6Params c6Tree 1 [30]
    rfl (by decide)

/-- C10: for a bare lower-case identifier usage of the qualifying
shape, the provider returns one candidate per enclosing value
declaration, walking the ancestor chain innermost first, and a
candidate materializes exactly for those declarations whose left-hand
side has a last pattern. -/
theorem getActions_per_enclosing_declaration (c : Collab) (params : Params) (range : Range)
    (hshape : (c.sfTree.type (c.getNamedDescendantForRange range) == "lower_case_identifier"
      && ((c.sfTree.parent (c.getNamedDescendantForRange range)).bind c.sfTree.parent).map
          c.sfTree.type == some "value_expr"
      && (((c.sfTree.parent (c.getNamedDescendantForRange range)).bind c.sfTree.parent).bind
          c.sfTree.parent).isSome
      && !((c.sfTree.previousSibling (c.getNamedDescendantForRange range)).map c.sfTree.type
          == some "dot")) = true) :
    getActions c params range =
      some ((getAllAncestorsOfType c.sfTree "value_declaration"
          (c.getNamedDescendantForRange range)).filterMap
        (fun valueDeclaration => getActionsForValueDeclaration c c.sfTree valueDeclaration
          (c.getNamedDescendantForRange range) params))
    ∧ ∀ valueDeclaration : Nat,
        (getActionsForValueDeclaration c c.sfTree valueDeclaration
          (c.getNamedDescendantForRange range) params).isSome =
        ((c.sfTree.firstChild valueDeclaration).bind c.sfTree.lastChild).isSome := by
  constructor
  · simp only [getActions, hshape]
    rfl
  · intro valueDeclaration
    cases hch : (c.sfTree.firstChild valueDeclaration).bind c.sfTree.lastChild with
    | none => simp [getActionsForValueDeclaration, hch]
    | some lastPattern => simp [getActionsForValueDeclaration, hch]

/-- A tree for the C10 witness: the identifier usage is node 7, with
ancestors 6 (qualified reference), 5 (value expression), 4 (function
call), 3 (inner value declaration), 2 (let expression), 1 (outer value
declaration); both declarations have a left-hand side with a last
pattern. -/
def c10Tree : STree :=
  { trivialTree with
    type := fun i =>
      if i == 7 then "lower_case_identifier"
      else if i == 5 then "value_expr"
      else if i == 4 then "function_call_expr"
      else if i == 3 || i == 1 then "value_declaration"
      else if i == 2 then "let_in_expr"
      else "file"
    text := fun i =>
      if i == 7 then "x" else if i == 32 then "inner" else if i == 42 then "outer" else ""
    parent := fun i =>
      if i == 7 then some 6
      else if i == 6 then some 5
      else if i == 5 then some 4
      else if i == 4 then some 3
      else if i == 3 then some 2
      else if i == 2 then some 1
      else none
    firstChild := fun i =>
      if i == 3 then some 30
      else if i == 30 then some 32
      else if i == 1 then some 40
      else if i == 40 then some 42
      else none
    lastChild := fun i =>
      if i == 30 then some 31 else if i == 40 then some 41 else none }

/-- Collaborators for the C10 witness. -/
def c10Collab : Collab :=
  { baseCollab with
    sfTree := c10Tree
    getNamedDescendantForRange := fun _ => 7 }

/-- The request parameters of the C10 witness. -/
def c10Params : Params :=
  { uri := "file:///Main.elm"
    range := { start := { row := 4, col := 8 }, endPos := { row := 4, col := 9 } }
    contextDiagnostics := [] }

/-- C10 (witness): on the nested usage the ancestor walk finds the
inner declaration 3 before the outer declaration 1, and the provider
returns two actions, one per enclosing declaration. -/
theorem getActions_per_enclosing_declaration_witness :
    getActions c10Collab c10Params c10Params.range =
      some ((getAllAncestorsOfType c10Collab.sfTree "value_declaration"
          (c10Collab.getNamedDescendantForRange c10Params.range)).filterMap
        (fun valueDeclaration => getActionsForValueDeclaration c10Collab c10Collab.sfTree
          valueDeclaration (c10Collab.getNamedDescendantForRange c10Params.range) c10Params))
    ∧ getAllAncestorsOfType c10Tree "value_declaration" 7 = [3, 1]
    ∧ ((getActions c10Collab c10Params c10Params.range).getD []).length = 2 :=
  ⟨(getActions_per_enclosing_declaration c10Collab c10Params c10Params.range (by decide)).1,
    by decide, by decide⟩

end ElmLS
